import Mathlib

/-!
Verification of the Medicinal Cannabis Portal backend (main.py, schemas.py).

The code under `src/` is embedded shallowly:
* `schemas.py` record shapes become Lean structures (`Article`, `Doctor`,
  `AppointmentRequest`, `NewsletterSubscriber`); float prices are modelled
  as rationals, URL/email/date fields as strings.
* `main.py` handlers become pure functions over an explicit store (a list of
  records in storage order).
* The document-access layer (`database.py`: `get_documents`,
  `create_document`) is imported by `main.py` but is not part of `src/`;
  it is modelled from the spec (§4.1), see `get_documents` and the write
  handlers below.
* External collaborators (the Mongo query engine's `$in`/`$lte`/`$regex`
  evaluation, FastAPI/pydantic boundary validation) are modelled from their
  documented semantics where a claim depends on them.
-/

namespace Portal

/-- Record shape of `schemas.Article` (URL and timestamp fields as strings). -/
structure Article where
  title : String
  slug : String
  summary : Option String := none
  content : Option String := none
  category : Option String := none
  tags : List String := []
  cover_image : Option String := none
  author : Option String := none
  published_at : Option String := none
  related_slugs : List String := []
deriving DecidableEq, Repr

/-- Record shape of `schemas.Doctor` (price as a rational). -/
structure Doctor where
  name : String
  crm : Option String := none
  photo_url : Option String := none
  specialties : List String := []
  pathologies : List String := []
  consultation_types : List String := []
  price_from : Option Rat := none
  states : List String := []
  cities : List String := []
  clinic_name : Option String := none
  languages : List String := []
  education : Option String := none
  bio : Option String := none
  whatsapp : Option String := none
  email : Option String := none
deriving DecidableEq, Repr

/-- Record shape of `schemas.AppointmentRequest`. -/
structure AppointmentRequest where
  patient_name : String
  email : String
  phone : String
  pathology : String
  consultation_type : Option String := none
  preferred_dates : List String := []
  state : Option String := none
  city : Option String := none
  doctor_id : Option String := none
  notes : Option String := none
deriving DecidableEq, Repr

/-- Record shape of `schemas.NewsletterSubscriber`. -/
structure NewsletterSubscriber where
  email : String
  interests : List String := []
deriving DecidableEq, Repr

/-!
## A fragment of the store's regular-expression matcher

`list_articles` passes the `q` parameter verbatim as a `$regex` pattern with
`$options: "i"` (case-insensitive, unanchored search).  The regex engine
lives in the document store, an external collaborator; it is modelled here
on the fragment of patterns made of literal characters and the `.` wildcard,
which is enough to settle the claims about `q`.  Patterns using any other
metacharacter are outside the modelled fragment (`parsePat` returns `none`
on them, and the theorems below restrict to parsed patterns).
-/

/-- One regex atom: a literal character or the `.` wildcard. -/
inductive RAtom where
  | lit : Char → RAtom
  | dot : RAtom
deriving DecidableEq, Repr

/-- Case-insensitive match of one atom against one character. -/
def atomMatch : RAtom → Char → Bool
  | RAtom.lit a, c => a.toLower == c.toLower
  | RAtom.dot, _ => true

/-- The pattern matches some prefix of the character list, atom by atom. -/
def matchHere : List RAtom → List Char → Bool
  | [], _ => true
  | _ :: _, [] => false
  | a :: ps, c :: cs => atomMatch a c && matchHere ps cs

/-- Unanchored search: the pattern matches starting at some position. -/
def searchFrom : List RAtom → List Char → Bool
  | p, [] => matchHere p []
  | p, c :: cs => matchHere p (c :: cs) || searchFrom p cs

/-- Characters that are metacharacters in the store's regex dialect. -/
def regexMeta : List Char :=
  ['\\', '^', '$', '.', '|', '?', '*', '+', '(', ')', '[', ']', '\x7b', '\x7d']

/-- Parse one pattern character: `.` is the wildcard, other metacharacters
are outside the modelled fragment, anything else is a literal. -/
def parseAtom (c : Char) : Option RAtom :=
  if c = '.' then some RAtom.dot
  else if regexMeta.contains c then none
  else some (RAtom.lit c)

/-- Parse a character list within the modelled fragment. -/
def parseAtoms : List Char → Option (List RAtom)
  | [] => some []
  | c :: cs =>
    match parseAtom c, parseAtoms cs with
    | some a, some as => some (a :: as)
    | _, _ => none

/-- Parse a whole pattern within the modelled fragment. -/
def parsePat (s : String) : Option (List RAtom) :=
  parseAtoms s.toList

/-- Modelled from the spec: the store's `$regex` with `$options: "i"`
(case-insensitive unanchored search); defined on the modelled pattern
fragment, `false` outside it (the theorems below never leave the fragment). -/
def mongoRegexCI (pat s : String) : Bool :=
  match parsePat pat with
  | some p => searchFrom p s.toList
  | none => false

/-- `needle` occurs in `hay` as a case-insensitive literal substring
(the spec's words for the `q` filter, §4.2). -/
def SubstrCI (needle hay : String) : Prop :=
  ∃ pre post, hay.toList.map Char.toLower =
    pre ++ needle.toList.map Char.toLower ++ post

/-!
## Document access layer (modelled)
-/

/-- Modelled from the spec: `database.get_documents(collection, filter,
limit)` is not under `src/`; per §4.1 it returns up to `limit` records
matching the filter, in storage-default order, never erring on zero
matches.  Modelled as the first `limit` matching records of the stored
sequence. -/
def get_documents {α : Type} (store : List α) (filt : α → Bool) (limit : Nat) :
    List α :=
  (store.filter filt).take limit

/-!
## Filter builder (main.py, `list_articles` / `list_doctors`)
-/

/-- Python truthiness on an optional string parameter (`if q:` skips both
`None` and the empty string). -/
def strTruthy : Option String → Option String
  | none => none
  | some s => if s = "" then none else some s

/-- The filter document built by `list_articles` (main.py lines 88–98):
an optional `$or` regex pair over title/summary, an optional exact category
match, an optional `$in` on tags. -/
structure ArticleFilt where
  qRegex : Option String
  category : Option String
  tagIn : Option String
deriving DecidableEq, Repr

/-- Builds the `list_articles` filter from the query parameters, with
Python truthiness on each (`if q:`, `if category:`, `if tag:`). -/
def buildArticleFilt (q category tag : Option String) : ArticleFilt :=
  { qRegex := strTruthy q, category := strTruthy category, tagIn := strTruthy tag }

/-- Evaluation of an article filter document against a stored article
(the store's semantics for the operators the code uses: `$or` of two
`$regex` clauses — a missing `summary` field never matches a regex clause —
top-level equality on `category` — a missing field does not equal a string —
and `$in` on the `tags` list). -/
def matchArticle (f : ArticleFilt) (a : Article) : Bool :=
  (match f.qRegex with
   | none => true
   | some q =>
     mongoRegexCI q a.title ||
       (match a.summary with
        | none => false
        | some s => mongoRegexCI q s))
  &&
  (match f.category with
   | none => true
   | some c =>
     match a.category with
     | none => false
     | some c2 => c2 == c)
  &&
  (match f.tagIn with
   | none => true
   | some t => a.tags.contains t)

/-- The filter document built by `list_doctors` (main.py lines 120–132):
optional `$in` clauses on five list fields and an optional `$lte` on
`price_from`. -/
structure DoctorFilt where
  specialtyIn : Option String
  stateIn : Option String
  cityIn : Option String
  pathologyIn : Option String
  ctypeIn : Option String
  priceLte : Option Rat
deriving DecidableEq, Repr

/-- Builds the `list_doctors` filter: truthiness on the five string
parameters, `is not None` on `price_max`. -/
def buildDoctorFilt (specialty state city pathology consultation_type :
    Option String) (price_max : Option Rat) : DoctorFilt :=
  { specialtyIn := strTruthy specialty
    stateIn := strTruthy state
    cityIn := strTruthy city
    pathologyIn := strTruthy pathology
    ctypeIn := strTruthy consultation_type
    priceLte := price_max }

/-- `$in [v]` against a list-valued field: membership. -/
def inClause (v : Option String) (field : List String) : Bool :=
  match v with
  | none => true
  | some x => field.contains x

/-- Evaluation of a doctor filter document against a stored doctor
(`$in` membership on each list field; `$lte` on `price_from`, which a
missing `price_from` never satisfies). -/
def matchDoctor (f : DoctorFilt) (d : Doctor) : Bool :=
  inClause f.specialtyIn d.specialties &&
  inClause f.stateIn d.states &&
  inClause f.cityIn d.cities &&
  inClause f.pathologyIn d.pathologies &&
  inClause f.ctypeIn d.consultation_types &&
  (match f.priceLte with
   | none => true
   | some m =>
     match d.price_from with
     | none => false
     | some p => decide (p ≤ m))

/-!
## Boundary validation of query parameters (FastAPI `Query`)
-/

/-- Modelled from the spec: FastAPI `Query(default, ge=1, le=100)`
validation of `limit` (the framework boundary is external to `src/`);
absent yields the default, out-of-range values are rejected, in-range
values pass through unclamped. -/
def validateLimit (deflt : Nat) (raw : Option Int) : Option Nat :=
  match raw with
  | none => some deflt
  | some v => if 1 ≤ v ∧ v ≤ 100 then some v.toNat else none

/-- Modelled from the spec: FastAPI `Query(None, ge=0)` validation of
`price_max`; absent passes as absent, negative values are rejected. -/
def validatePriceMax (raw : Option Rat) : Option (Option Rat) :=
  match raw with
  | none => some none
  | some v => if 0 ≤ v then some (some v) else none

/-!
## Read handlers (main.py)
-/

/-- `GET /articles` (main.py lines 81–99): build the filter, read with the
validated limit. -/
def list_articles (q category tag : Option String) (limit : Nat)
    (store : List Article) : List Article :=
  get_documents store (matchArticle (buildArticleFilt q category tag)) limit

/-- `GET /doctors` (main.py lines 110–134). -/
def list_doctors (specialty state city pathology consultation_type :
    Option String) (price_max : Option Rat) (limit : Nat)
    (store : List Doctor) : List Doctor :=
  get_documents store
    (matchDoctor (buildDoctorFilt specialty state city pathology
      consultation_type price_max)) limit

/-- `GET /articles/{slug}` (main.py lines 102–107): read with an exact slug
filter and limit 1; `none` models the 404 branch. -/
def get_article (slug : String) (store : List Article) : Option Article :=
  match get_documents store (fun a => a.slug == slug) 1 with
  | [] => none
  | d :: _ => some d

/-!
## Write boundary (pydantic validation) and write handlers
-/

/-- A JSON value as far as the request bodies need: strings, string lists,
null, or anything else (numbers, objects — only their being ill-typed for
every declared field matters). -/
inductive JVal where
  | str : String → JVal
  | arr : List String → JVal
  | null : JVal
  | other : JVal
deriving DecidableEq, Repr

/-- A JSON object body: association list of field name to value. -/
abbrev JObj : Type := List (String × JVal)

/-- First binding of a key in the body. -/
def jlookup (body : JObj) (k : String) : Option JVal :=
  match body with
  | [] => none
  | kv :: rest => if kv.1 == k then some kv.2 else jlookup rest k

/-- Modelled from the spec: pydantic `EmailStr` format validation (the
email validator is an external library); modelled as a nonempty local
part, exactly one `@`, and a nonempty domain containing a dot. -/
def validEmail (s : String) : Bool :=
  let cs := s.toList
  let l := cs.takeWhile (· ≠ '@')
  let d := (cs.dropWhile (· ≠ '@')).drop 1
  cs.count '@' == 1 && !l.isEmpty && !d.isEmpty && d.contains '.'

/-- A required `str` field: present with a string value, else validation
fails. -/
def reqStr (body : JObj) (k : String) : Option String :=
  match jlookup body k with
  | some (JVal.str s) => some s
  | _ => none

/-- An `Optional[str]` field: absent or null defaults to `none`; a
non-string, non-null value fails validation. -/
def optStr (body : JObj) (k : String) : Option (Option String) :=
  match jlookup body k with
  | none => some none
  | some JVal.null => some none
  | some (JVal.str s) => some (some s)
  | some _ => none

/-- A `List[str]` field with a `default_factory=list`: absent defaults to
`[]`; present must be a list of strings. -/
def optStrList (body : JObj) (k : String) : Option (List String) :=
  match jlookup body k with
  | none => some []
  | some (JVal.arr l) => some l
  | some _ => none

/-- The declared field names of `AppointmentRequest` (schemas.py 55–69). -/
def appointmentFields : List String :=
  ["patient_name", "email", "phone", "pathology", "consultation_type",
   "preferred_dates", "state", "city", "doctor_id", "notes"]

/-- The declared field names of `NewsletterSubscriber` (schemas.py 72–78). -/
def newsletterFields : List String := ["email", "interests"]

/-- Modelled from the spec: the framework's boundary validation of an
`AppointmentRequest` body against schemas.py lines 55–69 (pydantic is
external to `src/`): each declared field is read with its declared type and
requiredness, the email is format-checked, and — per the framework's
default — field names outside the schema are ignored, not rejected. -/
def validateAppointment (body : JObj) : Option AppointmentRequest :=
  match reqStr body "patient_name", reqStr body "email",
        reqStr body "phone", reqStr body "pathology" with
  | some pn, some em, some ph, some pa =>
    if validEmail em then
      match optStr body "consultation_type", optStrList body "preferred_dates",
            optStr body "state", optStr body "city",
            optStr body "doctor_id", optStr body "notes" with
      | some ct, some pd, some st, some ci, some di, some no =>
        some { patient_name := pn, email := em, phone := ph, pathology := pa,
               consultation_type := ct, preferred_dates := pd, state := st,
               city := ci, doctor_id := di, notes := no }
      | _, _, _, _, _, _ => none
    else none
  | _, _, _, _ => none

/-- Modelled from the spec: boundary validation of a `NewsletterSubscriber`
body against schemas.py lines 72–78, with the same conventions as
`validateAppointment`. -/
def validateNewsletter (body : JObj) : Option NewsletterSubscriber :=
  match reqStr body "email" with
  | some em =>
    if validEmail em then
      match optStrList body "interests" with
      | some ints => some { email := em, interests := ints }
      | none => none
    else none
  | none => none

/-- `POST /appointment` (main.py lines 140–143) composed with the boundary:
a body that fails validation is rejected before the handler runs and the
store is untouched; a valid body is persisted by `create_document`
(modelled from the spec: not under `src/`; appends one record and returns
its new identifier). -/
def create_appointment (body : JObj) (store : List AppointmentRequest) :
    Option Nat × List AppointmentRequest :=
  match validateAppointment body with
  | none => (none, store)
  | some r => (some store.length, store ++ [r])

/-- `POST /newsletter` (main.py lines 146–149), same shape as
`create_appointment`. -/
def subscribe_newsletter (body : JObj) (store : List NewsletterSubscriber) :
    Option Nat × List NewsletterSubscriber :=
  match validateNewsletter body with
  | none => (none, store)
  | some r => (some store.length, store ++ [r])

/-!
## Sitemap (main.py lines 155–174)
-/

/-- The fixed static path list of `sitemap` (main.py line 158). -/
def static_paths : List String :=
  ["/", "/articles", "/about", "/press", "/contact", "/privacy", "/terms",
   "/lgpd"]

/-- One `<url>` line of the sitemap, as the f-strings on lines 159 and 165
produce it. -/
def urlLine (base path : String) : String :=
  "  <url><loc>" ++ base ++ path ++ "</loc></url>"

/-- The url lines of the sitemap: all static paths, then — when the
article read succeeds (`store = some st`) — one line per article returned
by `get_documents("article", {}, limit=500)` whose `slug` is truthy; on a
read failure (`store = none`) the `except: pass` leaves only the static
lines. -/
def sitemapUrls (base : String) (store : Option (List Article)) :
    List String :=
  let urls := static_paths.map (fun p => urlLine base p)
  match store with
  | none => urls
  | some st =>
    urls ++ (get_documents st (fun _ => true) 500).filterMap
      (fun a => if a.slug = "" then none
                else some (urlLine base ("/articles/" ++ a.slug)))

/-- Python's `"\n".join`. -/
def joinLines : List String → String
  | [] => ""
  | [l] => l
  | l :: ls => l ++ "\n" ++ joinLines ls

/-- `GET /sitemap.xml`: the XML declaration and `<urlset>` wrapper around
the url lines, joined by newlines. -/
def sitemap (base : String) (store : Option (List Article)) : String :=
  joinLines
    (["<?xml version=\"1.0\" encoding=\"UTF-8\"?>",
      "<urlset xmlns=\"http://www.sitemaps.org/schemas/sitemap/0.9\">"]
     ++ sitemapUrls base store ++ ["</urlset>"])

/-- `needle` occurs verbatim as a substring of `hay` (used to state what
the sitemap output "contains"). -/
def StrSub (needle hay : String) : Prop :=
  ∃ pre post, hay.toList = pre ++ needle.toList ++ post

/-!
## Helper lemmas
-/

/-- A record returned by a read is a stored record that the filter accepts. -/
theorem mem_get_documents {α : Type} {store : List α} {filt : α → Bool}
    {limit : Nat} {a : α} (h : a ∈ get_documents store filt limit) :
    a ∈ store ∧ filt a = true := by
  have h' := List.mem_of_mem_take h
  exact ⟨(List.mem_filter.mp h').1, (List.mem_filter.mp h').2⟩

/-- A read returns at most `limit` records. -/
theorem get_documents_length_le {α : Type} (store : List α) (filt : α → Bool)
    (limit : Nat) : (get_documents store filt limit).length ≤ limit :=
  List.length_take_le limit _

/-- A read returns the empty sequence exactly when no stored record matches. -/
theorem get_documents_eq_nil {α : Type} (store : List α) (filt : α → Bool)
    (limit : Nat) (hl : 1 ≤ limit) :
    get_documents store filt limit = [] ↔ ∀ a ∈ store, filt a = false := by
  unfold get_documents
  constructor
  · intro h a ha
    cases hf : store.filter filt with
    | nil =>
      have := List.filter_eq_nil_iff.mp hf a ha
      simpa using this
    | cons b rest =>
      rw [hf] at h
      cases limit with
      | zero => omega
      | succ n => simp at h
  · intro h
    have : store.filter filt = [] := List.filter_eq_nil_iff.mpr (by
      intro a ha
      simp [h a ha])
    simp [this]

/-!
## Claim theorems
-/

/-- C5: `limit` values below 1 or above 100 are rejected at the boundary on
both list endpoints (never clamped); an absent `limit` defaults to 20 for
articles and 50 for doctors; in-range values pass through unchanged; and
the result of either list endpoint never exceeds the limit in length. -/
theorem limit_validation :
    (∀ v : Int, (v < 1 ∨ 100 < v) →
      validateLimit 20 (some v) = none ∧ validateLimit 50 (some v) = none)
    ∧ validateLimit 20 none = some 20
    ∧ validateLimit 50 none = some 50
    ∧ (∀ v : Int, 1 ≤ v → v ≤ 100 →
      validateLimit 20 (some v) = some v.toNat ∧
        validateLimit 50 (some v) = some v.toNat)
    ∧ (∀ q category tag limit store,
      (list_articles q category tag limit store).length ≤ limit)
    ∧ (∀ sp st ci pa ct pm limit store,
      (list_doctors sp st ci pa ct pm limit store).length ≤ limit) := by
  refine ⟨?_, rfl, rfl, ?_, ?_, ?_⟩
  · intro v hv
    have : ¬ (1 ≤ v ∧ v ≤ 100) := by omega
    constructor <;> simp [validateLimit, this]
  · intro v h1 h2
    constructor <;> simp [validateLimit, h1, h2]
  · intro q category tag limit store
    exact get_documents_length_le ..
  · intro sp st ci pa ct pm limit store
    exact get_documents_length_le ..

/-- Witness for C5 at concrete inputs. -/
theorem limit_validation_witness :
    ((0 : Int) < 1 ∨ 100 < (0 : Int)) ∧
    validateLimit 20 (some 0) = none ∧ validateLimit 50 (some 0) = none :=
  ⟨Or.inl (by decide), limit_validation.1 0 (Or.inl (by decide))⟩

/-- C7: with `price_max` supplied, every doctor in the result has a present
`price_from` that is at most `price_max`; doctors with an absent
`price_from` never appear. -/
theorem doctors_price_threshold (sp st ci pa ct : Option String)
    (pmax : Rat) (limit : Nat) (store : List Doctor) (d : Doctor)
    (hd : d ∈ list_doctors sp st ci pa ct (some pmax) limit store) :
    ∃ p, d.price_from = some p ∧ p ≤ pmax := by
  have hm := (mem_get_documents hd).2
  unfold matchDoctor buildDoctorFilt at hm
  simp only [Bool.and_eq_true] at hm
  have hp := hm.2
  cases hpf : d.price_from with
  | none => rw [hpf] at hp; simp at hp
  | some p =>
    rw [hpf] at hp
    simp at hp
    exact ⟨p, rfl, hp⟩

/-- Witness for C7 at a concrete store. -/
theorem doctors_price_threshold_witness :
    ({ name := "D", price_from := some 100 } : Doctor) ∈
      list_doctors none none none none none (some 200) 50
        [{ name := "D", price_from := some 100 }] ∧
    ∃ p, ({ name := "D", price_from := some 100 } : Doctor).price_from =
      some p ∧ p ≤ (200 : Rat) :=
  ⟨by decide,
   doctors_price_threshold none none none none none 200 50
     [{ name := "D", price_from := some 100 }]
     { name := "D", price_from := some 100 } (by decide)⟩

/-- C10: a negative `price_max` is rejected by the boundary validation of
`GET /doctors`; `price_max` is accepted exactly when it is absent or
non-negative. -/
theorem price_max_validation :
    (∀ v : Rat, v < 0 → validatePriceMax (some v) = none)
    ∧ (∀ raw, (validatePriceMax raw).isSome = true ↔
        raw = none ∨ ∃ v, raw = some v ∧ 0 ≤ v) := by
  constructor
  · intro v hv
    simp [validatePriceMax, not_le.mpr hv]
  · intro raw
    cases raw with
    | none => simp [validatePriceMax]
    | some v =>
      by_cases hv : 0 ≤ v
      · simp [validatePriceMax, hv]
      · simp [validatePriceMax, hv]

/-- Witness for C10 at a concrete input. -/
theorem price_max_validation_witness :
    (-1 : Rat) < 0 ∧ validatePriceMax (some (-1)) = none :=
  ⟨by norm_num, price_max_validation.1 (-1) (by norm_num)⟩

/-- C9: on both list endpoints, a string query parameter supplied as the
empty string contributes no constraint — the handler behaves exactly as if
it were absent — whereas `price_max = 0` passes validation and contributes
the constraint `price_from ≤ 0`. -/
theorem empty_string_params :
    (∀ c t limit store, list_articles (some "") c t limit store =
      list_articles none c t limit store)
    ∧ (∀ q t limit store, list_articles q (some "") t limit store =
      list_articles q none t limit store)
    ∧ (∀ q c limit store, list_articles q c (some "") limit store =
      list_articles q c none limit store)
    ∧ (∀ st ci pa ct pm limit store,
      list_doctors (some "") st ci pa ct pm limit store =
        list_doctors none st ci pa ct pm limit store)
    ∧ (∀ sp ci pa ct pm limit store,
      list_doctors sp (some "") ci pa ct pm limit store =
        list_doctors sp none ci pa ct pm limit store)
    ∧ (∀ sp st pa ct pm limit store,
      list_doctors sp st (some "") pa ct pm limit store =
        list_doctors sp st none pa ct pm limit store)
    ∧ (∀ sp st ci ct pm limit store,
      list_doctors sp st ci (some "") ct pm limit store =
        list_doctors sp st ci none ct pm limit store)
    ∧ (∀ sp st ci pa pm limit store,
      list_doctors sp st ci pa (some "") pm limit store =
        list_doctors sp st ci pa none pm limit store)
    ∧ validatePriceMax (some 0) = some (some 0)
    ∧ (∀ d : Doctor,
      matchDoctor (buildDoctorFilt none none none none none (some 0)) d =
        (match d.price_from with
         | none => false
         | some p => decide (p ≤ 0))) := by
  refine ⟨?_, ?_, ?_, ?_, ?_, ?_, ?_, ?_, by simp [validatePriceMax], ?_⟩
  all_goals intros
  · rfl
  · rfl
  · rfl
  · rfl
  · rfl
  · rfl
  · rfl
  · rfl
  · simp [matchDoctor, buildDoctorFilt, strTruthy, inClause]

/-- C6: `GET /articles/{slug}` returns an article whose slug equals the
parameter whenever at least one stored article has that slug; it yields the
404 outcome (`none`) exactly when no stored article has that slug; and a
list endpoint with zero matches returns the empty sequence rather than an
error. -/
theorem slug_lookup :
    (∀ slug store, (∃ a ∈ store, a.slug = slug) →
      ∃ a, get_article slug store = some a ∧ a.slug = slug)
    ∧ (∀ slug store,
      get_article slug store = none ↔ ∀ a ∈ store, a.slug ≠ slug)
    ∧ (∀ q c t limit store,
      (∀ a ∈ store, matchArticle (buildArticleFilt q c t) a = false) →
      list_articles q c t limit store = []) := by
  refine ⟨?_, ?_, ?_⟩
  · intro slug store ⟨a, ha, hslug⟩
    unfold get_article get_documents
    cases hf : store.filter (fun a => a.slug == slug) with
    | nil =>
      have := List.filter_eq_nil_iff.mp hf a ha
      simp [hslug] at this
    | cons d rest =>
      have hd : d ∈ store.filter (fun a => a.slug == slug) := by
        rw [hf]; exact List.mem_cons_self d rest
      have := (List.mem_filter.mp hd).2
      simp at this
      exact ⟨d, by simp [List.take], this⟩
  · intro slug store
    unfold get_article
    constructor
    · intro h a ha hslug
      have hnil : get_documents store (fun a => a.slug == slug) 1 = [] := by
        cases hg : get_documents store (fun a => a.slug == slug) 1 with
        | nil => rfl
        | cons d rest => rw [hg] at h; simp at h
      have := (get_documents_eq_nil store _ 1 (by omega)).mp hnil a ha
      simp [hslug] at this
    · intro h
      have : get_documents store (fun a => a.slug == slug) 1 = [] :=
        (get_documents_eq_nil store _ 1 (by omega)).mpr (by
          intro a ha
          simp [h a ha])
      simp [this]
  · intro q c t limit store h
    unfold list_articles get_documents
    rw [List.filter_eq_nil_iff.mpr (by intro a ha; simp [h a ha])]
    simp

/-- Witness for C6 at a concrete store. -/
theorem slug_lookup_witness :
    (∃ a ∈ [({ title := "T", slug := "s" } : Article)], a.slug = "s") ∧
    ∃ a, get_article "s" [({ title := "T", slug := "s" } : Article)] =
      some a ∧ a.slug = "s" :=
  ⟨⟨{ title := "T", slug := "s" }, by decide⟩,
   slug_lookup.1 "s" [{ title := "T", slug := "s" }]
     ⟨{ title := "T", slug := "s" }, by decide⟩⟩

/-- C8: a body that fails schema validation (for instance one missing
`patient_name`, or one with a malformed email) is rejected before any store
write happens: the handler yields no identifier and the store is returned
unchanged, with no partial record appended. -/
theorem invalid_write_rejected :
    (∀ body store, validateAppointment body = none →
      create_appointment body store = (none, store))
    ∧ (∀ body store, validateNewsletter body = none →
      subscribe_newsletter body store = (none, store))
    ∧ validateAppointment
        [("email", JVal.str "a@b.co"), ("phone", JVal.str "5511"),
         ("pathology", JVal.str "pain")] = none
    ∧ validateAppointment
        [("patient_name", JVal.str "Ann"), ("email", JVal.str "not-an-email"),
         ("phone", JVal.str "5511"), ("pathology", JVal.str "pain")] = none
    ∧ validateNewsletter [("email", JVal.str "at-less")] = none := by
  refine ⟨?_, ?_, by decide, by decide, by decide⟩
  · intro body store h
    simp [create_appointment, h]
  · intro body store h
    simp [subscribe_newsletter, h]

/-- Witness for C8 at a concrete body and store. -/
theorem invalid_write_rejected_witness :
    validateAppointment [] = none ∧
    create_appointment [] [] = (none, []) :=
  ⟨by decide, invalid_write_rejected.1 [] [] (by decide)⟩

/-- Looking a declared key up in a body restricted to the declared keys is
the same as looking it up in the full body. -/
theorem jlookup_filter (fields : List String) (k : String)
    (hk : fields.contains k = true) :
    ∀ body : JObj,
      jlookup (body.filter (fun kv => fields.contains kv.1)) k =
        jlookup body k := by
  intro body
  induction body with
  | nil => rfl
  | cons kv rest ih =>
    by_cases hc : fields.contains kv.1 = true
    · rw [List.filter_cons_of_pos (by simpa using hc)]
      show (if kv.1 == k then some kv.2
            else jlookup (rest.filter (fun kv => fields.contains kv.1)) k) =
           (if kv.1 == k then some kv.2 else jlookup rest k)
      rw [ih]
    · have hne : (kv.1 == k) = false := by
        cases h : (kv.1 == k) with
        | false => rfl
        | true =>
          exfalso
          have hkk : kv.1 = k := by simpa using h
          rw [hkk] at hc
          exact hc hk
      rw [List.filter_cons_of_neg (by simpa using hc)]
      show jlookup (rest.filter (fun kv => fields.contains kv.1)) k =
           (if kv.1 == k then some kv.2 else jlookup rest k)
      rw [ih, hne]
      simp

/-- C3 counterexample: a body carrying the undeclared field
`"extra_field"` on top of a fully valid `AppointmentRequest` payload is
accepted by the boundary validation, not rejected. -/
theorem unknown_field_accepted :
    ¬ (∀ body : JObj,
        (∃ kv ∈ body, appointmentFields.contains kv.1 = false) →
        validateAppointment body = none) := by
  intro h
  have hb := h
    [("patient_name", JVal.str "Ann"), ("email", JVal.str "a@b.co"),
     ("phone", JVal.str "5511"), ("pathology", JVal.str "pain"),
     ("extra_field", JVal.str "x")]
    ⟨("extra_field", JVal.str "x"), by decide, by decide⟩
  revert hb
  decide

/-- C3 (amended): field names outside the schema's declared field set are
ignored by the boundary validation — validating a body is the same as
validating it with every undeclared field discarded — so an accepted record
carries only declared fields; unknown fields are not rejected. -/
theorem unknown_fields_ignored :
    (∀ body : JObj,
      validateAppointment body =
        validateAppointment
          (body.filter (fun kv => appointmentFields.contains kv.1)))
    ∧ (∀ body : JObj,
      validateNewsletter body =
        validateNewsletter
          (body.filter (fun kv => newsletterFields.contains kv.1))) := by
  constructor
  · intro body
    have h1 := jlookup_filter appointmentFields "patient_name" (by decide) body
    have h2 := jlookup_filter appointmentFields "email" (by decide) body
    have h3 := jlookup_filter appointmentFields "phone" (by decide) body
    have h4 := jlookup_filter appointmentFields "pathology" (by decide) body
    have h5 := jlookup_filter appointmentFields "consultation_type"
      (by decide) body
    have h6 := jlookup_filter appointmentFields "preferred_dates"
      (by decide) body
    have h7 := jlookup_filter appointmentFields "state" (by decide) body
    have h8 := jlookup_filter appointmentFields "city" (by decide) body
    have h9 := jlookup_filter appointmentFields "doctor_id" (by decide) body
    have h10 := jlookup_filter appointmentFields "notes" (by decide) body
    unfold validateAppointment reqStr optStr optStrList
    rw [h1, h2, h3, h4, h5, h6, h7, h8, h9, h10]
  · intro body
    have h1 := jlookup_filter newsletterFields "email" (by decide) body
    have h2 := jlookup_filter newsletterFields "interests" (by decide) body
    unfold validateNewsletter reqStr optStrList
    rw [h1, h2]

/-- Spec-side predicate for the article list filters (§4.2): a supplied
`category` is an exact match, a supplied `tag` must be a member of the
article's tags list, an absent parameter contributes no constraint. -/
def specArticlePred (category tag : Option String) (a : Article) : Bool :=
  (match category with
   | none => true
   | some c => a.category == some c) &&
  (match tag with
   | none => true
   | some t => a.tags.contains t)

/-- Spec-side predicate for the doctor list filters (§4.2): each supplied
string parameter is a membership test on the corresponding list field, a
supplied `price_max` requires a present `price_from ≤ price_max`, an
absent parameter contributes no constraint. -/
def specDoctorPred (specialty state city pathology consultation_type :
    Option String) (price_max : Option Rat) (d : Doctor) : Bool :=
  (match specialty with
   | none => true
   | some x => d.specialties.contains x) &&
  (match state with
   | none => true
   | some x => d.states.contains x) &&
  (match city with
   | none => true
   | some x => d.cities.contains x) &&
  (match pathology with
   | none => true
   | some x => d.pathologies.contains x) &&
  (match consultation_type with
   | none => true
   | some x => d.consultation_types.contains x) &&
  (match price_max with
   | none => true
   | some m =>
     match d.price_from with
     | none => false
     | some p => decide (p ≤ m))

/-- With non-empty supplied parameters, the article filter the code builds
agrees pointwise with the spec's conjunction of predicates. -/
theorem matchArticle_eq_spec (category tag : Option String)
    (hc : category ≠ some "") (ht : tag ≠ some "") (a : Article) :
    matchArticle (buildArticleFilt none category tag) a =
      specArticlePred category tag a := by
  unfold matchArticle buildArticleFilt specArticlePred strTruthy
  cases category with
  | none =>
    cases tag with
    | none => rfl
    | some t =>
      have ht' : t ≠ "" := fun h => ht (by rw [h])
      simp only [if_neg ht']
      cases a.tags.contains t <;> rfl
  | some c =>
    have hc' : c ≠ "" := fun h => hc (by rw [h])
    cases tag with
    | none =>
      simp only [if_neg hc']
      cases a.category <;> simp
    | some t =>
      have ht' : t ≠ "" := fun h => ht (by rw [h])
      simp only [if_neg hc', if_neg ht']
      cases a.category <;> simp

/-- With non-empty supplied parameters, the doctor filter the code builds
agrees pointwise with the spec's conjunction of predicates. -/
theorem matchDoctor_eq_spec (sp st ci pa ct : Option String)
    (pm : Option Rat) (h1 : sp ≠ some "") (h2 : st ≠ some "")
    (h3 : ci ≠ some "") (h4 : pa ≠ some "") (h5 : ct ≠ some "")
    (d : Doctor) :
    matchDoctor (buildDoctorFilt sp st ci pa ct pm) d =
      specDoctorPred sp st ci pa ct pm d := by
  have trq : ∀ o : Option String, o ≠ some "" → strTruthy o = o := by
    intro o ho
    cases o with
    | none => rfl
    | some s =>
      have hs : s ≠ "" := fun h => ho (by rw [h])
      simp [strTruthy, hs]
  unfold matchDoctor buildDoctorFilt specDoctorPred inClause
  rw [trq sp h1, trq st h2, trq ci h3, trq pa h4, trq ct h5]

/-- C1: for every combination of supplied (non-empty) list-filter
parameters, each list endpoint returns exactly the stored records
satisfying the conjunction of the spec's per-parameter predicates, in
store order, capped at `limit`; with no filter parameter supplied, the
first `limit` records are returned unfiltered. -/
theorem list_filters_exact :
    (∀ category tag limit (store : List Article),
      category ≠ some "" → tag ≠ some "" →
      list_articles none category tag limit store =
        (store.filter (specArticlePred category tag)).take limit)
    ∧ (∀ sp st ci pa ct pm limit (store : List Doctor),
      sp ≠ some "" → st ≠ some "" → ci ≠ some "" → pa ≠ some "" →
        ct ≠ some "" →
      list_doctors sp st ci pa ct pm limit store =
        (store.filter (specDoctorPred sp st ci pa ct pm)).take limit)
    ∧ (∀ limit (store : List Article),
      list_articles none none none limit store = store.take limit)
    ∧ (∀ limit (store : List Doctor),
      list_doctors none none none none none none limit store =
        store.take limit) := by
  refine ⟨?_, ?_, ?_, ?_⟩
  · intro category tag limit store hc ht
    unfold list_articles get_documents
    rw [show matchArticle (buildArticleFilt none category tag) =
          specArticlePred category tag from
        funext (matchArticle_eq_spec category tag hc ht)]
  · intro sp st ci pa ct pm limit store h1 h2 h3 h4 h5
    unfold list_doctors get_documents
    rw [show matchDoctor (buildDoctorFilt sp st ci pa ct pm) =
          specDoctorPred sp st ci pa ct pm from
        funext (matchDoctor_eq_spec sp st ci pa ct pm h1 h2 h3 h4 h5)]
  · intro limit store
    unfold list_articles get_documents
    rw [show matchArticle (buildArticleFilt none none none) =
          fun _ => true from funext fun a => rfl]
    rw [List.filter_true]
  · intro limit store
    unfold list_doctors get_documents
    rw [show matchDoctor (buildDoctorFilt none none none none none none) =
          fun _ => true from funext fun d => rfl]
    rw [List.filter_true]

/-- Witness for C1 at a concrete store and parameters. -/
theorem list_filters_exact_witness :
    ((some "News" : Option String) ≠ some "" ∧
      (none : Option String) ≠ some "") ∧
    list_articles none (some "News") none 20
        [{ title := "A", slug := "a", category := some "News" },
         { title := "B", slug := "b" }] =
      (([{ title := "A", slug := "a", category := some "News" },
         { title := "B", slug := "b" }] : List Article).filter
        (specArticlePred (some "News") none)).take 20 :=
  ⟨⟨by decide, by decide⟩,
   list_filters_exact.1 (some "News") none 20
     [{ title := "A", slug := "a", category := some "News" },
      { title := "B", slug := "b" }] (by decide) (by decide)⟩

/-- An all-literal pattern matches at the head of `s` exactly when the
lowercased pattern is a leading segment of the lowercased text. -/
theorem matchHere_lits (l : List Char) :
    ∀ s : List Char, matchHere (l.map RAtom.lit) s = true ↔
      ∃ post, s.map Char.toLower = l.map Char.toLower ++ post := by
  induction l with
  | nil =>
    intro s
    simp only [List.map_nil, matchHere, List.nil_append]
    exact ⟨fun _ => ⟨s.map Char.toLower, rfl⟩, fun _ => trivial⟩
  | cons a l ih =>
    intro s
    cases s with
    | nil =>
      simp only [List.map_cons, matchHere, List.map_nil, List.cons_append]
      constructor
      · intro h; cases h
      · rintro ⟨post, hp⟩; cases hp
    | cons c cs =>
      simp only [List.map_cons, matchHere, atomMatch, Bool.and_eq_true,
        beq_iff_eq, List.cons_append, List.cons.injEq]
      constructor
      · rintro ⟨hac, hm⟩
        obtain ⟨post, hp⟩ := (ih cs).mp hm
        exact ⟨post, hac.symm, hp⟩
      · rintro ⟨post, h1, h2⟩
        exact ⟨h1.symm, (ih cs).mpr ⟨post, h2⟩⟩

/-- An all-literal pattern is found by the unanchored search exactly when
the lowercased pattern occurs as a contiguous segment of the lowercased
text. -/
theorem searchFrom_lits (l : List Char) (s : List Char) :
    searchFrom (l.map RAtom.lit) s = true ↔
      ∃ pre post, s.map Char.toLower = pre ++ l.map Char.toLower ++ post := by
  induction s with
  | nil =>
    simp only [searchFrom]
    rw [matchHere_lits]
    constructor
    · rintro ⟨post, hp⟩
      exact ⟨[], post, by simpa using hp⟩
    · rintro ⟨pre, post, hp⟩
      simp only [List.map_nil] at hp
      have h0 : pre ++ l.map Char.toLower ++ post = [] := hp.symm
      rw [List.append_eq_nil] at h0
      rw [List.append_eq_nil] at h0
      exact ⟨[], by simp [h0.1.2]⟩
  | cons c cs ih =>
    simp only [searchFrom, Bool.or_eq_true]
    rw [matchHere_lits, ih]
    constructor
    · rintro (⟨post, hp⟩ | ⟨pre, post, hp⟩)
      · exact ⟨[], post, by simpa using hp⟩
      · exact ⟨c.toLower :: pre, post, by simp [hp]⟩
    · rintro ⟨pre, post, hp⟩
      cases pre with
      | nil => exact Or.inl ⟨post, by simpa using hp⟩
      | cons p0 pre' =>
        simp only [List.map_cons, List.cons_append, List.cons.injEq] at hp
        exact Or.inr ⟨pre', post, hp.2⟩

/-- `SubstrCI` coincides with the unanchored search for the pattern made
of the needle's characters as literals. -/
theorem substrCI_iff (needle hay : String) :
    SubstrCI needle hay ↔
      searchFrom (needle.toList.map RAtom.lit) hay.toList = true := by
  rw [searchFrom_lits]
  exact Iff.rfl

/-- A string whose characters all parse as literal atoms parses to the
all-literal pattern. -/
theorem parseAtoms_lits (l : List Char)
    (h : ∀ c ∈ l, parseAtom c = some (RAtom.lit c)) :
    parseAtoms l = some (l.map RAtom.lit) := by
  induction l with
  | nil => rfl
  | cons c cs ih =>
    have hc := h c (by simp)
    have hcs := ih (fun x hx => h x (by simp [hx]))
    simp [parseAtoms, hc, hcs]

/-- C2 (amended): the `q` filter matches title or summary by
case-insensitive regular-expression search of `q` (the code passes `q` as
a `$regex` pattern); when every character of `q` is an ordinary literal —
no regex metacharacter — this is exactly the claim's case-insensitive
literal-substring match on title OR summary. -/
theorem q_filter_regex (q : String) (hq : q ≠ "")
    (hlit : ∀ c ∈ q.toList, parseAtom c = some (RAtom.lit c))
    (a : Article) :
    matchArticle (buildArticleFilt (some q) none none) a = true ↔
      (SubstrCI q a.title ∨ ∃ s, a.summary = some s ∧ SubstrCI q s) := by
  have hparse : parsePat q = some (q.toList.map RAtom.lit) :=
    parseAtoms_lits _ hlit
  unfold matchArticle buildArticleFilt strTruthy mongoRegexCI
  simp only [if_neg hq, hparse, Bool.and_true]
  cases hsum : a.summary with
  | none =>
    simp only [Bool.or_false]
    rw [substrCI_iff]
    constructor
    · exact fun h => Or.inl h
    · rintro (h | ⟨s, hs, _⟩)
      · exact h
      · cases hs
  | some s =>
    simp only [Bool.or_eq_true]
    constructor
    · rintro (h | h)
      · exact Or.inl ((substrCI_iff q a.title).mpr h)
      · exact Or.inr ⟨s, rfl, (substrCI_iff q s).mpr h⟩
    · rintro (h | ⟨s', hs', h⟩)
      · exact Or.inl ((substrCI_iff q a.title).mp h)
      · cases hs'
        exact Or.inr ((substrCI_iff q s).mp h)

/-- Witness for C2 (amended) at a concrete metacharacter-free query. -/
theorem q_filter_regex_witness :
    ("b" : String) ≠ "" ∧
    (matchArticle (buildArticleFilt (some "b") none none)
        { title := "ABc", slug := "w" } = true ↔
      (SubstrCI "b" ({ title := "ABc", slug := "w" } : Article).title ∨
        ∃ s, ({ title := "ABc", slug := "w" } : Article).summary = some s ∧
          SubstrCI "b" s)) :=
  ⟨by decide, q_filter_regex "b" (by decide) (by decide)
    { title := "ABc", slug := "w" }⟩

/-- The article used in the C2 counterexample. -/
def artAbc : Article := { title := "abc", slug := "s" }

/-- C2 counterexample: with `q = "."` the built filter matches the article
titled `"abc"` (the store treats `q` as a regex, and `.` matches any
character), yet `"."` is not a case-insensitive literal substring of its
title and it has no summary — the claim as stated fails at this input. -/
theorem q_dot_counterexample :
    ¬ (matchArticle (buildArticleFilt (some ".") none none) artAbc = true ↔
       (SubstrCI "." artAbc.title ∨
         ∃ s, artAbc.summary = some s ∧ SubstrCI "." s)) := by
  intro h
  have hm : matchArticle (buildArticleFilt (some ".") none none) artAbc
      = true := by decide
  rcases h.mp hm with hsub | ⟨s, hs, _⟩
  · have h2 : searchFrom (".".toList.map RAtom.lit) "abc".toList = true :=
      (substrCI_iff "." "abc").mp hsub
    revert h2
    decide
  · simp [artAbc] at hs

/-- Appending strings concatenates their character lists. -/
theorem toList_append (a b : String) :
    (a ++ b).toList = a.toList ++ b.toList := by
  simp [String.toList]

/-- The character list of the newline separator. -/
theorem newline_toList : ("\n" : String).toList = ['\n'] := rfl

/-- Every line is a substring of the newline-joined output. -/
theorem sub_joinLines {u : String} :
    ∀ {ls : List String}, u ∈ ls → StrSub u (joinLines ls) := by
  intro ls
  induction ls with
  | nil => intro h; cases h
  | cons l ls ih =>
    intro h
    rcases List.mem_cons.mp h with rfl | hmem
    · cases ls with
      | nil => exact ⟨[], [], by simp [joinLines]⟩
      | cons l2 rest =>
        refine ⟨[], '\n' :: (joinLines (l2 :: rest)).toList, ?_⟩
        show (u ++ "\n" ++ joinLines (l2 :: rest)).toList = _
        rw [toList_append, toList_append, newline_toList]
        simp
    · cases ls with
      | nil => cases hmem
      | cons l2 rest =>
        obtain ⟨pre, post, hp⟩ := ih hmem
        refine ⟨l.toList ++ '\n' :: pre, post, ?_⟩
        show (l ++ "\n" ++ joinLines (l2 :: rest)).toList = _
        rw [toList_append, toList_append, newline_toList, hp]
        simp

/-- A static path's url line is among the emitted url lines whatever the
read outcome. -/
theorem static_mem_sitemapUrls (base : String) (store : Option (List Article))
    {p : String} (hp : p ∈ static_paths) :
    urlLine base p ∈ sitemapUrls base store := by
  unfold sitemapUrls
  cases store with
  | none => exact List.mem_map.mpr ⟨p, hp, rfl⟩
  | some st =>
    exact List.mem_append.mpr (Or.inl (List.mem_map.mpr ⟨p, hp, rfl⟩))

/-- Every line of the emitted url list is a substring of the sitemap
output. -/
theorem urls_sub_sitemap (base : String) (store : Option (List Article))
    {u : String} (hu : u ∈ sitemapUrls base store) :
    StrSub u (sitemap base store) := by
  apply sub_joinLines
  exact List.mem_append.mpr
    (Or.inl (List.mem_append.mpr (Or.inr hu)))

/-- C4 (amended): the sitemap output contains the url entry of every
static path regardless of store state (in particular when the article read
fails); when the read succeeds it also contains an entry built from the
slug of every article the capped read (`limit=500`) returns whose slug is
non-empty; and on read failure the url lines are exactly the static
ones. -/
theorem sitemap_entries (base : String) (store : Option (List Article)) :
    (∀ p ∈ static_paths, StrSub (urlLine base p) (sitemap base store))
    ∧ (∀ st, store = some st →
      ∀ a ∈ get_documents st (fun _ => true) 500, a.slug ≠ "" →
        StrSub (urlLine base ("/articles/" ++ a.slug)) (sitemap base store))
    ∧ sitemapUrls base none = static_paths.map (fun p => urlLine base p) := by
  refine ⟨?_, ?_, rfl⟩
  · intro p hp
    exact urls_sub_sitemap base store (static_mem_sitemapUrls base store hp)
  · rintro st rfl a ha hslug
    apply urls_sub_sitemap
    unfold sitemapUrls
    refine List.mem_append.mpr (Or.inr ?_)
    exact List.mem_filterMap.mpr ⟨a, ha, by simp [hslug]⟩

/-- Witness for C4 at concrete inputs. -/
theorem sitemap_entries_witness :
    "/" ∈ static_paths ∧
    StrSub (urlLine "https://example.com" "/")
      (sitemap "https://example.com" none) :=
  ⟨by decide, (sitemap_entries "https://example.com" none).1 "/" (by decide)⟩

/-- An article present 500 times over in the store of the C4
counterexample. -/
def artA : Article := { title := "t", slug := "a" }

/-- The 501st article of the C4 counterexample; its slug character `z`
occurs nowhere else in the sitemap output. -/
def artB : Article := { title := "t", slug := "z" }

/-- The i-th stored article of the C4 counterexample. -/
def bigArt (i : Nat) : Article := if i = 500 then artB else artA

/-- A store of 501 articles, all with non-empty slugs. -/
def bigStore : List Article := (List.range 501).map bigArt

/-- A character other than the newline occurs in the joined output only if
it occurs in one of the lines. -/
theorem joinLines_chars {c : Char} (hc : c ≠ '\n') :
    ∀ {ls : List String}, (∀ u ∈ ls, c ∉ u.toList) →
      c ∉ (joinLines ls).toList := by
  intro ls
  induction ls with
  | nil => intro _ h; cases h
  | cons l ls ih =>
    intro hall
    cases ls with
    | nil => exact fun h => hall l (by simp) h
    | cons l2 rest =>
      intro h
      rw [show joinLines (l :: l2 :: rest) =
            l ++ "\n" ++ joinLines (l2 :: rest) from rfl] at h
      rw [toList_append, toList_append, newline_toList] at h
      rcases List.mem_append.mp h with h1 | h2
      · rcases List.mem_append.mp h1 with ha | hb
        · exact hall l (by simp) ha
        · simp at hb
          exact hc hb
      · exact ih (fun u hu => hall u (by simp [hu])) h2

/-- Every stored article the C4 counterexample's capped read returns is
`artA`. -/
theorem bigArt_lt {i : Nat} (h : i < 500) : bigArt i = artA := by
  unfold bigArt
  rw [if_neg (by omega)]

/-- The capped read over the 501-article store returns the first 500
articles only. -/
theorem bigStore_read :
    get_documents bigStore (fun _ => true) 500 =
      (List.range 500).map bigArt := by
  unfold get_documents bigStore
  rw [List.filter_true, ← List.map_take, List.take_range]
  norm_num

/-- The character `z` does not occur in the sitemap emitted over the
501-article store. -/
theorem no_z_in_sitemap : 'z' ∉ (sitemap "B" (some bigStore)).toList := by
  apply joinLines_chars (by decide)
  intro u hu
  rcases List.mem_append.mp hu with hu1 | hu2
  · rcases List.mem_append.mp hu1 with hh | hurl
    · simp at hh
      rcases hh with rfl | rfl <;> decide
    · rw [show sitemapUrls "B" (some bigStore) =
            static_paths.map (fun p => urlLine "B" p) ++
              (get_documents bigStore (fun _ => true) 500).filterMap
                (fun a => if a.slug = "" then none
                          else some (urlLine "B" ("/articles/" ++ a.slug)))
          from rfl] at hurl
      rcases List.mem_append.mp hurl with hstat | hart
      · obtain ⟨p, hp, rfl⟩ := List.mem_map.mp hstat
        fin_cases hp <;> decide
      · rw [bigStore_read] at hart
        obtain ⟨x, hx, hgx⟩ := List.mem_filterMap.mp hart
        obtain ⟨i, hi, rfl⟩ := List.mem_map.mp hx
        rw [bigArt_lt (List.mem_range.mp hi)] at hgx
        have hu' : u = urlLine "B" ("/articles/" ++ artA.slug) := by
          simpa [artA] using hgx.symm
        rw [hu']
        decide
  · simp at hu2
    rw [hu2]
    decide

/-- C4 counterexample: with 501 stored articles the capped read
(`limit=500`) drops one of them, so the sitemap output lacks the entry
built from the 501st article's (non-empty) slug — the claim as stated
fails at this store. -/
theorem sitemap_cap_counterexample :
    ¬ (∀ a ∈ bigStore, a.slug ≠ "" →
        StrSub (urlLine "B" ("/articles/" ++ a.slug))
          (sitemap "B" (some bigStore))) := by
  intro h
  have hmem : artB ∈ bigStore := by
    simp only [bigStore, List.mem_map]
    exact ⟨500, by simp [List.mem_range], by simp [bigArt]⟩
  obtain ⟨pre, post, hp⟩ := h artB hmem (by decide)
  apply no_z_in_sitemap
  rw [hp]
  have hn : 'z' ∈ (urlLine "B" ("/articles/" ++ artB.slug)).toList := by
    decide
  simp only [List.mem_append]
  exact Or.inl (Or.inr hn)

end Portal
